import Mathlib

/-!
Verification of the argument-handling layer of the complate text-templating
tool.  The repository carries two generations of the `args` module:

* `src/args/mod.rs` (clap 2 era) — embedded below in namespace `ModRs`.
  It contains the privilege gate (`CallArgs::validate` rejecting the UI
  backend and value overrides under normal privilege) and the three-way
  `--shell-trust` option (`none`/`prompt`/`ultimate`).
* `src/args.rs` (clap 4 era) — embedded below in namespace `ArgsRs`.
  It adds the `headless` backend (the default), the `--loose` flag, a
  boolean `--trust` flag, and a `validate` that accepts every request.

Both loaders share the same value-override parsing (`splitn(2, "=")`
followed by unchecked indexing) and the same `HashMap::insert` loop; those
are embedded once in namespace `Shared`.  Rust panics (out-of-bounds
indexing, `unwrap` on `None`) are modelled by a distinguished `panicked`
outcome, kept separate from the structured `Err` results.
-/

namespace Shared

/-- Embedding of Rust `vo.splitn(2, "=")` at the character-list level,
restricted to what the loaders observe: `some (k, v)` when the string
contains a `=` (so the resulting vector has two elements, `k` before the
first `=` and `v` the entire remainder), `none` when it does not (the
vector has a single element and `spl[1]` is out of bounds). -/
def splitOnceEq : List Char → Option (List Char × List Char)
  | [] => none
  | c :: rest =>
    if c = '=' then some ([], rest)
    else
      match splitOnceEq rest with
      | some (k, v) => some (c :: k, v)
      | none => none

/-- One override argument as parsed by both loaders:
`let spl = vo.splitn(2, "=").collect::<Vec<_>>()` giving `(spl[0], spl[1])`.
`none` means `spl` has fewer than two elements and `spl[1]` panics. -/
def parseOverride (vo : String) : Option (String × String) :=
  (splitOnceEq vo.data).map (fun p => (⟨p.1⟩, ⟨p.2⟩))

/-- Lookup in the model of `std::collections::HashMap<String, String>`:
the list stands for the map entries (keys unique by construction). -/
def hmGet : List (String × String) → String → Option String
  | [], _ => none
  | p :: t, k => if p.1 = k then some p.2 else hmGet t k

/-- Model of `HashMap::insert`: replaces the value stored at an existing
key, otherwise adds a new entry.  List position stands in for the
unordered buckets; only `hmGet` and length are observed by the code. -/
def hmInsert (m : List (String × String)) (k v : String) : List (String × String) :=
  match m with
  | [] => [(k, v)]
  | p :: t => if p.1 = k then (k, v) :: t else p :: hmInsert t k v

/-- The override-collection loop shared by both loaders:
a loop over the arguments that splits each at the first `=` and inserts both parts into the map.
`none` models the panic on an argument without `=`. -/
def loadValueOverridesFrom : List (String × String) → List String → Option (List (String × String))
  | acc, [] => some acc
  | acc, vo :: rest =>
    match parseOverride vo with
    | some (k, v) => loadValueOverridesFrom (hmInsert acc k v) rest
    | none => none

/-- Override collection starting from the empty map, as in both loaders. -/
def loadValueOverrides (vos : List String) : Option (List (String × String)) :=
  loadValueOverridesFrom [] vos

end Shared

namespace ModRs

/-- Type `Privilege` from src/args/mod.rs. -/
inductive Privilege
  | Normal
  | Experimental
deriving DecidableEq, Repr

/-- Type `ShellTrust` from src/args/mod.rs (three states). -/
inductive ShellTrust
  | None
  | Prompt
  | Ultimate
deriving DecidableEq, Repr

/-- Type `Backend` from src/args/mod.rs.  Both feature-gated variants
(`backend+cli`, `backend+ui`) are present: this embeds the all-features
build, the only one in which the UI variant exists. -/
inductive Backend
  | CLI
  | UI
deriving DecidableEq, Repr

/-- Type `RenderArguments` from src/args/mod.rs (no `loose` field in this
generation of the module). -/
structure RenderArguments where
  configuration : String
  template : Option String
  value_overrides : List (String × String)
  shell_trust : ShellTrust
  backend : Backend
deriving DecidableEq, Repr

/-- Type `Command` from src/args/mod.rs. -/
inductive Command
  | Init
  | Render (args : RenderArguments)
deriving DecidableEq, Repr

/-- Type `CallArgs` from src/args/mod.rs. -/
structure CallArgs where
  privileges : Privilege
  command : Command
deriving DecidableEq, Repr

/-- Error message of the UI rejection in `CallArgs::validate`. -/
def uiDeniedMsg : String :=
  "can not use backend+ui without experimental features being activated"

/-- Error message of the overrides rejection in `CallArgs::validate`. -/
def overridesDeniedMsg : String :=
  "value overrides is an experimental feature and needs the respective flag to be active"

/-- Method `CallArgs::validate` from src/args/mod.rs: under `Normal` privilege a
`Render` command is rejected when its backend is `UI` (early return), and
otherwise when its override map is non-empty; everything else, and every
request under `Experimental` privilege, passes.  Errors carry the
`std::io::Error` message. -/
def validate (c : CallArgs) : Except String Unit :=
  match c.privileges with
  | .Normal =>
    match c.command with
    | .Render args =>
      match args.backend with
      | .UI => .error uiDeniedMsg
      | .CLI =>
        if args.value_overrides.length > 0 then
          .error overridesDeniedMsg
        else
          .ok ()
    | _ => .ok ()
  | .Experimental => .ok ()

/-- The `possible_values` list of the `--shell-trust` option. -/
def shellTrustPossibleValues : List String := ["none", "prompt", "ultimate"]

/-- The `default_value` of the `--shell-trust` option. -/
def shellTrustDefault : String := "none"

/-- The `shell_trust` match of `load_from_cli`:
`Some("none") => None, Some("prompt") => Prompt, Some("ultimate") => Ultimate,`
any other value falls to `None`, and an absent option is `None`. -/
def parseShellTrust (s : Option String) : ShellTrust :=
  match s with
  | some x =>
    if x = "none" then .None
    else if x = "prompt" then .Prompt
    else if x = "ultimate" then .Ultimate
    else .None
  | none => .None

/-- The `backend_values` vector of `load_from_cli`: `cli` and `ui`, each
present only when its cargo feature is compiled in (no `headless` in this
generation). -/
def backendValues (featCli featUi : Bool) : List String :=
  (if featCli then ["cli"] else []) ++ (if featUi then ["ui"] else [])

/-- Clap-side acceptance of a `--backend` value (its `possible_values`). -/
def backendAccepted (featCli featUi : Bool) (s : String) : Prop :=
  s ∈ backendValues featCli featUi

/-- Result of the mod.rs `backend` match: the `cli`/`ui` arms and the
fallback `Err("unknown backend configuration")`, with `panicked` standing
for the build without any backend feature (there `backend_values` is empty
and `.first().unwrap()` already aborts while the command is built). -/
inductive BackendResult
  | ok (b : Backend)
  | err (msg : String)
  | panicked
deriving DecidableEq, Repr

/-- The `backend` match of `load_from_cli` over the optional clap value:
feature-gated arms for `"cli"` and `"ui"` in order, a fallback error for
any other string, and feature-gated `None` arms choosing the first
available backend (the clap default value of the option). -/
def parseBackend (featCli featUi : Bool) (s : Option String) : BackendResult :=
  match s with
  | some x =>
    if featCli = true ∧ x = "cli" then .ok .CLI
    else if featUi = true ∧ x = "ui" then .ok .UI
    else .err "unknown backend configuration"
  | none =>
    if featCli = true then .ok .CLI
    else if featUi = true then .ok .UI
    else .panicked

/-- The raw clap 2 matches of the `render` subcommand as `load_from_cli`
reads them: each optional argument as `value_of`/`is_present` sees it
(options with a `default_value` are always present in a real invocation),
`value` as the possibly-empty list of `-v` occurrences in order. -/
structure RenderMatches where
  config : Option String
  template : Option String
  shellTrust : Option String
  value : List String
  backend : Option String
deriving DecidableEq, Repr

/-- Which subcommand the clap 2 matches carry. -/
inductive SubMatches
  | init
  | render (rm : RenderMatches)
  | other
deriving DecidableEq, Repr

/-- The raw clap 2 matches of one invocation: the global `-e` (`--experimental`)
flag and the subcommand. -/
structure RawMatches where
  experimental : Bool
  sub : SubMatches
deriving DecidableEq, Repr

/-- A structured failure of `load_from_cli`: an `io::Error::new(Other, msg)`
with its message, or the `?`-propagated error of `fs::read_to_string`. -/
inductive LoadFailure
  | message (msg : String)
  | ioRead
deriving DecidableEq, Repr

/-- Outcome of `load_from_cli`: success, a structured error, or a panic. -/
inductive LoadResult
  | ok (c : CallArgs)
  | err (e : LoadFailure)
  | panicked
deriving DecidableEq, Repr

/-- Method `ClapArgumentLoader::load_from_cli` from src/args/mod.rs, over the raw
matches and a file system `fs` (`none` models a `read_to_string` failure).
Privilege is the `experimental` flag; `init` returns at once; `render`
reads the configuration, takes the optional template, parses the trust
mode, collects the `-v` overrides (panicking on a string without `=`),
parses the backend, and assembles the `CallArgs`; no subcommand is the
`could not resolve subcommand` error. -/
def load_from_cli (featCli featUi : Bool) (fs : String → Option String)
    (m : RawMatches) : LoadResult :=
  let privileges := if m.experimental then Privilege.Experimental else Privilege.Normal
  match m.sub with
  | .init => .ok ⟨privileges, .Init⟩
  | .render rm =>
    match rm.config with
    | none => .err (.message "configuration not specified")
    | some configParam =>
      match fs configParam with
      | none => .err .ioRead
      | some config =>
        let template := rm.template
        let shell_trust := parseShellTrust rm.shellTrust
        match Shared.loadValueOverrides rm.value with
        | none => .panicked
        | some value_overrides =>
          match parseBackend featCli featUi rm.backend with
          | .err msg => .err (.message msg)
          | .panicked => .panicked
          | .ok backend =>
            .ok ⟨privileges, .Render ⟨config, template, value_overrides, shell_trust, backend⟩⟩
  | .other => .err (.message "could not resolve subcommand")

end ModRs

namespace ArgsRs

/-- Type `Privilege` from src/args.rs. -/
inductive Privilege
  | Normal
  | Experimental
deriving DecidableEq, Repr

/-- Type `ManualFormat` from src/args.rs. -/
inductive ManualFormat
  | Manpages
  | Markdown
deriving DecidableEq, Repr

/-- Type `clap_complete::Shell` as used by src/args.rs (the five values the
`value_parser` of the `autocomplete` subcommand admits). -/
inductive Shell
  | Bash
  | Zsh
  | Fish
  | Elvish
  | PowerShell
deriving DecidableEq, Repr

/-- Function `clap_complete::Shell::from_str` on the strings clap can hand over. -/
def shellFromStr (s : String) : Option Shell :=
  if s = "bash" then some .Bash
  else if s = "zsh" then some .Zsh
  else if s = "fish" then some .Fish
  else if s = "elvish" then some .Elvish
  else if s = "powershell" then some .PowerShell
  else none

/-- Type `ShellTrust` from src/args.rs (two states; no `Prompt` in this
generation). -/
inductive ShellTrust
  | None
  | Ultimate
deriving DecidableEq, Repr

/-- Type `Backend` from src/args.rs with both feature-gated variants present
(the all-features build). -/
inductive Backend
  | Headless
  | CLI
  | UI
deriving DecidableEq, Repr

/-- Type `RenderArguments` from src/args.rs. -/
structure RenderArguments where
  configuration : String
  template : Option String
  value_overrides : List (String × String)
  shell_trust : ShellTrust
  loose : Bool
  backend : Backend
deriving DecidableEq, Repr

/-- Type `Command` from src/args.rs. -/
inductive Command
  | Manual (path : String) (format : ManualFormat)
  | Autocomplete (path : String) (shell : Shell)
  | Init
  | Render (args : RenderArguments)
deriving DecidableEq, Repr

/-- Type `CallArgs` from src/args.rs. -/
structure CallArgs where
  privileges : Privilege
  command : Command
deriving DecidableEq, Repr

/-- Type `crate::error::Error` as used from src/args.rs (reconstructed from its
use sites there: `Error::Argument(msg)` and `Error::UnknownCommand`). -/
inductive Error
  | Argument (msg : String)
  | UnknownCommand
deriving DecidableEq, Repr

/-- Method `CallArgs::validate` from src/args.rs: under `Normal` privilege every
command matches the wildcard arm and passes; under `Experimental`
privilege everything passes.  No request is ever rejected. -/
def validate (c : CallArgs) : Except String Unit :=
  match c.privileges with
  | .Normal =>
    match c.command with
    | _ => .ok ()
  | .Experimental => .ok ()

/-- The `backend_values` vector of `root_command`: `headless` always, then
`cli` and `ui` when their cargo features are compiled in. -/
def backendValues (featCli featUi : Bool) : List String :=
  ["headless"] ++ (if featCli then ["cli"] else []) ++ (if featUi then ["ui"] else [])

/-- The `default_value` of the `--backend` option in `root_command`. -/
def backendDefault : String := "headless"

/-- The `backend` match of `load`: `"headless"`, then the feature-gated
`"cli"` and `"ui"` arms, then the fallback
`Err(Error::Argument("no backend specified"))`. -/
def parseBackend (featCli featUi : Bool) (s : String) : Except Error Backend :=
  if s = "headless" then .ok .Headless
  else if featCli = true ∧ s = "cli" then .ok .CLI
  else if featUi = true ∧ s = "ui" then .ok .UI
  else .error (.Argument "no backend specified")

/-- The raw clap 4 matches of the `render` subcommand as `load` reads
them: `config` and `backend` always carry a value (both options have a
`default_value`), `trust` and `loose` are `SetTrue` flags (`get_flag` is
`true` exactly when the flag was given), `value` is the list of `-v`
occurrences in command-line order. -/
structure RenderMatches where
  config : String
  template : Option String
  trust : Bool
  loose : Bool
  value : List String
  backend : String
deriving DecidableEq, Repr

/-- Which subcommand the clap 4 matches carry (`other` is the final `else`
branch; the clap setting `subcommand_required(true)` makes it unreachable in a real
invocation, but the code handles it). -/
inductive SubMatches
  | man (out : String) (format : String)
  | autocomplete (out : String) (shell : String)
  | init
  | render (rm : RenderMatches)
  | other
deriving DecidableEq, Repr

/-- The raw clap 4 matches of one invocation: the global `-e` (`--experimental`)
flag and the subcommand. -/
structure RawMatches where
  experimental : Bool
  sub : SubMatches
deriving DecidableEq, Repr

/-- Outcome of `load`: success, a structured `crate::error::Error`, the
`?`-propagated `read_to_string` failure, or a panic (`unwrap` on `None`
or out-of-bounds indexing). -/
inductive LoadResult
  | ok (c : CallArgs)
  | err (e : Error)
  | ioErr
  | panicked
deriving DecidableEq, Repr

/-- Method `ClapArgumentLoader::load` from src/args.rs, over the raw matches and
a file system `fs` (`none` models a `read_to_string` failure).  Privilege
is the `experimental` flag; `man` parses its format (fallback: `Argument
"unknown format"`); `autocomplete` unwraps `Shell::from_str`; `render`
reads the configuration, maps the `trust` flag to `Ultimate`/`None`, takes
the `loose` flag, collects the `-v` overrides (panicking on a string
without `=`), parses the backend, and assembles the `CallArgs`; no
subcommand is `Error::UnknownCommand`. -/
def load (featCli featUi : Bool) (fs : String → Option String)
    (m : RawMatches) : LoadResult :=
  let privileges := if m.experimental then Privilege.Experimental else Privilege.Normal
  match m.sub with
  | .man out format =>
    match format with
    | "manpages" => .ok ⟨privileges, .Manual out .Manpages⟩
    | "markdown" => .ok ⟨privileges, .Manual out .Markdown⟩
    | _ => .err (.Argument "unknown format")
  | .autocomplete out shell =>
    match shellFromStr shell with
    | some sh => .ok ⟨privileges, .Autocomplete out sh⟩
    | none => .panicked
  | .init => .ok ⟨privileges, .Init⟩
  | .render rm =>
    match fs rm.config with
    | none => .ioErr
    | some config =>
      let template := rm.template
      let shell_trust := if rm.trust then ShellTrust.Ultimate else ShellTrust.None
      let loose := rm.loose
      match Shared.loadValueOverrides rm.value with
      | none => .panicked
      | some value_overrides =>
        match parseBackend featCli featUi rm.backend with
        | .error e => .err e
        | .ok backend =>
          .ok ⟨privileges,
            .Render ⟨config, template, value_overrides, shell_trust, loose, backend⟩⟩
  | .other => .err .UnknownCommand

end ArgsRs

/-- Modelled from the spec: the pipeline orchestrator (`main.rs`) is not
under src/; per the spec the orchestrator sequences
Privilege Gate → template selection → variable resolution → rendering,
short-circuiting fatally on the first failure, so a validation error stops
the run before any later stage.  Stages named for that sequence. -/
inductive Stage
  | Validation
  | Selection
  | Resolution
  | Rendering
deriving DecidableEq, Repr

/-- Modelled from the spec: the stages the orchestrator executes for a
request — validation always runs first, and only when it succeeds do
selection, resolution and rendering follow. -/
def pipelineStages (c : ModRs.CallArgs) : List Stage :=
  match ModRs.validate c with
  | .error _ => [Stage.Validation]
  | .ok _ => [Stage.Validation, Stage.Selection, Stage.Resolution, Stage.Rendering]

/-- Specification-side description of the override loop effect: the
value of the last argument with key `k`, in command-line order. -/
def lastVal : List (String × String) → String → Option String
  | [], _ => none
  | p :: t, k =>
    match lastVal t k with
    | some v => some v
    | none => if p.1 = k then some p.2 else none

theorem hmGet_hmInsert_self (m : List (String × String)) (k v : String) :
    Shared.hmGet (Shared.hmInsert m k v) k = some v := by
  induction m with
  | nil => simp [Shared.hmInsert, Shared.hmGet]
  | cons p t ih =>
    by_cases h : p.1 = k
    · simp [Shared.hmInsert, Shared.hmGet, h]
    · simp [Shared.hmInsert, Shared.hmGet, h, ih]

theorem hmGet_hmInsert_ne (m : List (String × String)) (k k' v : String)
    (h : k ≠ k') :
    Shared.hmGet (Shared.hmInsert m k v) k' = Shared.hmGet m k' := by
  induction m with
  | nil => simp [Shared.hmInsert, Shared.hmGet, h]
  | cons p t ih =>
    by_cases hp : p.1 = k
    · simp [Shared.hmInsert, Shared.hmGet, hp, h]
    · simp [Shared.hmInsert, Shared.hmGet, hp, ih]

theorem hmGet_loadValueOverridesFrom (vos : List String) :
    ∀ (acc m : List (String × String)),
      Shared.loadValueOverridesFrom acc vos = some m →
      ∀ k, Shared.hmGet m k =
        match lastVal (vos.filterMap Shared.parseOverride) k with
        | some v => some v
        | none => Shared.hmGet acc k := by
  induction vos with
  | nil =>
    intro acc m h k
    simp only [Shared.loadValueOverridesFrom, Option.some.injEq] at h
    subst h
    simp [lastVal]
  | cons vo rest ih =>
    intro acc m h k
    simp only [Shared.loadValueOverridesFrom] at h
    cases hp : Shared.parseOverride vo with
    | none => rw [hp] at h; cases h
    | some kv =>
      rw [hp] at h
      rw [ih _ _ h k]
      simp only [List.filterMap_cons, hp, lastVal]
      cases hl : lastVal (rest.filterMap Shared.parseOverride) k with
      | some v => simp
      | none =>
        simp only
        by_cases hk : kv.1 = k
        · subst hk
          simp [hmGet_hmInsert_self]
        · simp [hk, hmGet_hmInsert_ne _ _ _ _ hk]

theorem splitOnceEq_of_mem (l : List Char) (h : '=' ∈ l) :
    Shared.splitOnceEq l =
      some (l.takeWhile (fun c => c ≠ '='), (l.dropWhile (fun c => c ≠ '=')).tail) := by
  induction l with
  | nil => cases h
  | cons c rest ih =>
    by_cases hc : c = '='
    · subst hc
      simp [Shared.splitOnceEq, List.takeWhile_cons, List.dropWhile_cons]
    · have hmem : '=' ∈ rest := by
        rcases List.mem_cons.mp h with h1 | h1
        · exact absurd h1.symm hc
        · exact h1
      simp [Shared.splitOnceEq, hc, ih hmem, List.takeWhile_cons, List.dropWhile_cons]

/-- C1: under normal privilege, `CallArgs::validate` (src/args/mod.rs)
rejects every `Render` request whose override map is non-empty, and the
orchestrator therefore stops at the validation stage, before any
resolution work; under experimental privilege every request passes
validation regardless of backend, trust mode, or overrides. -/
theorem C1_overrides_gate :
    (∀ args : ModRs.RenderArguments, args.value_overrides.length > 0 →
      ∃ e, ModRs.validate ⟨.Normal, .Render args⟩ = .error e) ∧
    (∀ args : ModRs.RenderArguments, args.value_overrides.length > 0 →
      pipelineStages ⟨.Normal, .Render args⟩ = [Stage.Validation]) ∧
    (∀ c : ModRs.CallArgs, c.privileges = .Experimental →
      ModRs.validate c = .ok ()) := by
  have gate : ∀ args : ModRs.RenderArguments, args.value_overrides.length > 0 →
      ∃ e, ModRs.validate ⟨.Normal, .Render args⟩ = .error e := by
    intro args h
    cases hb : args.backend with
    | UI => exact ⟨ModRs.uiDeniedMsg, by simp [ModRs.validate, hb]⟩
    | CLI => exact ⟨ModRs.overridesDeniedMsg, by simp [ModRs.validate, hb, h]⟩
  refine ⟨gate, ?_, ?_⟩
  · intro args h
    obtain ⟨e, he⟩ := gate args h
    simp [pipelineStages, he]
  · intro c h
    cases c with
    | mk p cmd => cases h; rfl

/-- Witness for C1 at concrete inputs: a normal-privilege render request
with one override is rejected, and an experimental-privilege request
passes. -/
theorem C1_overrides_gate_witness :
    ((⟨"cfg", none, [("a", "b")], .None, .CLI⟩ : ModRs.RenderArguments).value_overrides.length > 0) ∧
    (∃ e, ModRs.validate ⟨.Normal, .Render ⟨"cfg", none, [("a", "b")], .None, .CLI⟩⟩ = .error e) ∧
    pipelineStages ⟨.Normal, .Render ⟨"cfg", none, [("a", "b")], .None, .CLI⟩⟩ = [Stage.Validation] ∧
    (⟨.Experimental, .Render ⟨"cfg", none, [("a", "b")], .Ultimate, .UI⟩⟩ : ModRs.CallArgs).privileges = .Experimental ∧
    ModRs.validate ⟨.Experimental, .Render ⟨"cfg", none, [("a", "b")], .Ultimate, .UI⟩⟩ = .ok () :=
  ⟨by decide,
   C1_overrides_gate.1 _ (by decide),
   C1_overrides_gate.2.1 _ (by decide),
   rfl,
   C1_overrides_gate.2.2 _ rfl⟩

/-- C2: under normal privilege, `CallArgs::validate` (src/args/mod.rs)
rejects every `Render` request whose backend is the full-screen `UI`
variant with the `backend+ui` error, and the orchestrator stops at the
validation stage — no template selection and no variable resolution run. -/
theorem C2_ui_gate :
    ∀ args : ModRs.RenderArguments, args.backend = .UI →
      ModRs.validate ⟨.Normal, .Render args⟩ = .error ModRs.uiDeniedMsg ∧
      pipelineStages ⟨.Normal, .Render args⟩ = [Stage.Validation] ∧
      Stage.Selection ∉ pipelineStages ⟨.Normal, .Render args⟩ ∧
      Stage.Resolution ∉ pipelineStages ⟨.Normal, .Render args⟩ := by
  intro args h
  have hv : ModRs.validate ⟨.Normal, .Render args⟩ = .error ModRs.uiDeniedMsg := by
    simp [ModRs.validate, h]
  refine ⟨hv, ?_, ?_, ?_⟩ <;> simp [pipelineStages, hv]

/-- Witness for C2: the concrete normal-privilege request with backend
`ui` is rejected at validation and no later stage runs. -/
theorem C2_ui_gate_witness :
    ((⟨"cfg", none, [], .None, .UI⟩ : ModRs.RenderArguments).backend = .UI) ∧
    (ModRs.validate ⟨.Normal, .Render ⟨"cfg", none, [], .None, .UI⟩⟩ = .error ModRs.uiDeniedMsg ∧
      pipelineStages ⟨.Normal, .Render ⟨"cfg", none, [], .None, .UI⟩⟩ = [Stage.Validation] ∧
      Stage.Selection ∉ pipelineStages ⟨.Normal, .Render ⟨"cfg", none, [], .None, .UI⟩⟩ ∧
      Stage.Resolution ∉ pipelineStages ⟨.Normal, .Render ⟨"cfg", none, [], .None, .UI⟩⟩) :=
  ⟨rfl, C2_ui_gate _ rfl⟩

/-- C3: the `--shell-trust` option of src/args/mod.rs admits exactly the
values `none`, `prompt` and `ultimate`; `load_from_cli` maps them to
`ShellTrust.None`, `ShellTrust.Prompt` and `ShellTrust.Ultimate`
respectively, and an absent option (or the clap default `none`) yields
`ShellTrust.None`. -/
theorem C3_shell_trust_values :
    ModRs.shellTrustPossibleValues = ["none", "prompt", "ultimate"] ∧
    (∀ s : String, s ∈ ModRs.shellTrustPossibleValues ↔
      (s = "none" ∨ s = "prompt" ∨ s = "ultimate")) ∧
    ModRs.parseShellTrust (some "none") = .None ∧
    ModRs.parseShellTrust (some "prompt") = .Prompt ∧
    ModRs.parseShellTrust (some "ultimate") = .Ultimate ∧
    ModRs.shellTrustDefault = "none" ∧
    ModRs.parseShellTrust (some ModRs.shellTrustDefault) = .None ∧
    ModRs.parseShellTrust none = .None := by
  refine ⟨rfl, ?_, by decide, by decide, by decide, rfl, by decide, rfl⟩
  intro s
  simp [ModRs.shellTrustPossibleValues]

/-- C4: an override argument without `=` does not produce a structured
loader error — both loaders index `spl[1]` on a one-element vector and
panic.  At the concrete input `-v novalue` (all other arguments well
formed, configuration readable) `load` (src/args.rs) and `load_from_cli`
(src/args/mod.rs) both end in the panic outcome, and already the shared
override parsing yields no second component to read. -/
theorem C4_override_without_eq_panics :
    Shared.parseOverride "novalue" = none ∧
    Shared.loadValueOverrides ["novalue"] = none ∧
    ArgsRs.load true true (fun _ => some "template") 
      ⟨false, .render ⟨"./.complate/config.yaml", none, false, false, ["novalue"], "headless"⟩⟩ =
      .panicked ∧
    ModRs.load_from_cli true true (fun _ => some "template")
      ⟨false, .render ⟨some "./.complate/config.yml", none, some "none", ["novalue"], some "cli"⟩⟩ =
      .panicked :=
  ⟨rfl, rfl, rfl, rfl⟩

/-- C5: for every override argument containing at least one `=`, the
shared `splitn(2, "=")` parsing yields exactly two parts: the key is the
text before the first `=` and the value is the entire remainder after it. -/
theorem C5_split_at_first_eq (s : String) (h : '=' ∈ s.data) :
    Shared.parseOverride s =
      some (⟨s.data.takeWhile (fun c => c ≠ '=')⟩,
            ⟨(s.data.dropWhile (fun c => c ≠ '=')).tail⟩) := by
  unfold Shared.parseOverride
  rw [splitOnceEq_of_mem s.data h]
  rfl

/-- Witness for C5 at the concrete input of the claim: `"a=b=c"` yields
key `"a"` and value `"b=c"`. -/
theorem C5_split_at_first_eq_witness :
    ('=' ∈ "a=b=c".data) ∧ Shared.parseOverride "a=b=c" = some ("a", "b=c") :=
  ⟨by decide, by rw [C5_split_at_first_eq "a=b=c" (by decide)]; rfl⟩

/-- C6: the `--backend` option of src/args.rs admits `headless` always and
`cli`/`ui` exactly when the corresponding cargo feature is compiled in;
`load` maps each admitted name to its `Backend` variant, and the
`default_value` is `headless`, which maps to `Backend.Headless`. -/
theorem C6_backend_values :
    ∀ featCli featUi : Bool,
      ArgsRs.backendDefault = "headless" ∧
      "headless" ∈ ArgsRs.backendValues featCli featUi ∧
      ArgsRs.parseBackend featCli featUi "headless" = .ok .Headless ∧
      ArgsRs.parseBackend featCli featUi ArgsRs.backendDefault = .ok .Headless ∧
      ("cli" ∈ ArgsRs.backendValues featCli featUi ↔ featCli = true) ∧
      ("ui" ∈ ArgsRs.backendValues featCli featUi ↔ featUi = true) ∧
      ArgsRs.parseBackend featCli featUi "cli" =
        (if featCli then .ok .CLI else .error (.Argument "no backend specified")) ∧
      ArgsRs.parseBackend featCli featUi "ui" =
        (if featUi then .ok .UI else .error (.Argument "no backend specified")) := by
  intro featCli featUi
  cases featCli <;> cases featUi <;> refine ⟨rfl, by decide, rfl, rfl, ?_, ?_, rfl, rfl⟩ <;>
    simp [ArgsRs.backendValues]

/-- C9: the override map built by the loaders keeps, for every key, the
value of the last `-v` occurrence in command-line order (later
`HashMap::insert` calls overwrite earlier ones), and keys of distinct
overrides are all retained: looking up any key returns exactly the value
of the last parsed override with that key. -/
theorem C9_last_override_wins (vos : List String) (m : List (String × String))
    (h : Shared.loadValueOverrides vos = some m) (k : String) :
    Shared.hmGet m k = lastVal (vos.filterMap Shared.parseOverride) k := by
  have := hmGet_loadValueOverridesFrom vos [] m h k
  rw [this]
  cases lastVal (vos.filterMap Shared.parseOverride) k <;> simp [Shared.hmGet]

/-- Witness for C9 at concrete inputs: of `a=1`, `b=2`, `a=3` the map
keeps `a ↦ 3` (last occurrence) and `b ↦ 2` (distinct key retained). -/
theorem C9_last_override_wins_witness :
    Shared.loadValueOverrides ["a=1", "b=2", "a=3"] = some [("a", "3"), ("b", "2")] ∧
    Shared.hmGet [("a", "3"), ("b", "2")] "a" =
      lastVal ((["a=1", "b=2", "a=3"] : List String).filterMap Shared.parseOverride) "a" ∧
    Shared.hmGet [("a", "3"), ("b", "2")] "b" =
      lastVal ((["a=1", "b=2", "a=3"] : List String).filterMap Shared.parseOverride) "b" ∧
    Shared.hmGet [("a", "3"), ("b", "2")] "a" = some "3" ∧
    Shared.hmGet [("a", "3"), ("b", "2")] "b" = some "2" :=
  ⟨by decide,
   C9_last_override_wins _ _ (by decide) "a",
   C9_last_override_wins _ _ (by decide) "b",
   by decide, by decide⟩

/-- C7: whenever `load` (src/args.rs) succeeds on a `render` subcommand,
the `loose` field of the resulting render request equals the raw
`--loose` flag of the matches (`get_flag` under `ArgAction::SetTrue`:
`true` exactly when the flag was given, `false` when it was absent). -/
theorem C7_loose_flag (featCli featUi : Bool) (fs : String → Option String)
    (m : ArgsRs.RawMatches) (rm : ArgsRs.RenderMatches)
    (c : ArgsRs.CallArgs) (args : ArgsRs.RenderArguments)
    (hsub : m.sub = .render rm)
    (hload : ArgsRs.load featCli featUi fs m = .ok c)
    (hcmd : c.command = .Render args) :
    args.loose = rm.loose := by
  obtain ⟨e, sub⟩ := m
  simp only at hsub
  subst hsub
  simp only [ArgsRs.load] at hload
  cases hfs : fs rm.config with
  | none => rw [hfs] at hload; cases hload
  | some config =>
    rw [hfs] at hload
    cases hvo : Shared.loadValueOverrides rm.value with
    | none => rw [hvo] at hload; cases hload
    | some vo =>
      rw [hvo] at hload
      cases hb : ArgsRs.parseBackend featCli featUi rm.backend with
      | error err => rw [hb] at hload; cases hload
      | ok b =>
        rw [hb] at hload
        cases hload
        cases hcmd
        rfl

/-- Witness for C7 at a concrete invocation with `--loose` given: the
loaded render request has `loose = true`, the raw flag value. -/
theorem C7_loose_flag_witness :
    ArgsRs.load true true (fun _ => some "cfg")
      ⟨false, .render ⟨"p", none, false, true, [], "headless"⟩⟩ =
      .ok ⟨.Normal, .Render ⟨"cfg", none, [], .None, true, .Headless⟩⟩ ∧
    (⟨"cfg", none, [], .None, true, .Headless⟩ : ArgsRs.RenderArguments).loose =
      (⟨"p", none, false, true, [], "headless"⟩ : ArgsRs.RenderMatches).loose :=
  ⟨rfl,
   C7_loose_flag true true (fun _ => some "cfg")
     ⟨false, .render ⟨"p", none, false, true, [], "headless"⟩⟩
     ⟨"p", none, false, true, [], "headless"⟩
     ⟨.Normal, .Render ⟨"cfg", none, [], .None, true, .Headless⟩⟩
     ⟨"cfg", none, [], .None, true, .Headless⟩
     rfl rfl rfl⟩

theorem argsRs_load_ok_privileges (featCli featUi : Bool) (fs : String → Option String)
    (m : ArgsRs.RawMatches) (c : ArgsRs.CallArgs)
    (h : ArgsRs.load featCli featUi fs m = .ok c) :
    c.privileges = (if m.experimental then .Experimental else .Normal) := by
  obtain ⟨e, sub⟩ := m
  cases sub with
  | man out format =>
    simp only [ArgsRs.load] at h
    split at h <;> cases h <;> rfl
  | autocomplete out shell =>
    simp only [ArgsRs.load] at h
    cases hsh : ArgsRs.shellFromStr shell with
    | some sh => rw [hsh] at h; cases h; rfl
    | none => rw [hsh] at h; cases h
  | init =>
    simp only [ArgsRs.load] at h
    cases h; rfl
  | render rm =>
    simp only [ArgsRs.load] at h
    cases hfs : fs rm.config with
    | none => rw [hfs] at h; cases h
    | some config =>
      rw [hfs] at h
      cases hvo : Shared.loadValueOverrides rm.value with
      | none => rw [hvo] at h; cases h
      | some vo =>
        rw [hvo] at h
        cases hb : ArgsRs.parseBackend featCli featUi rm.backend with
        | error err => rw [hb] at h; cases h
        | ok b => rw [hb] at h; cases h; rfl
  | other =>
    simp only [ArgsRs.load] at h
    cases h

theorem modRs_load_ok_privileges (featCli featUi : Bool) (fs : String → Option String)
    (m : ModRs.RawMatches) (c : ModRs.CallArgs)
    (h : ModRs.load_from_cli featCli featUi fs m = .ok c) :
    c.privileges = (if m.experimental then .Experimental else .Normal) := by
  obtain ⟨e, sub⟩ := m
  cases sub with
  | init =>
    simp only [ModRs.load_from_cli] at h
    cases h; rfl
  | render rm =>
    simp only [ModRs.load_from_cli] at h
    cases hcfg : rm.config with
    | none => rw [hcfg] at h; cases h
    | some configParam =>
      simp only [hcfg] at h
      cases hfs : fs configParam with
      | none => rw [hfs] at h; cases h
      | some config =>
        simp only [hfs] at h
        cases hvo : Shared.loadValueOverrides rm.value with
        | none => rw [hvo] at h; cases h
        | some vo =>
          simp only [hvo] at h
          cases hb : ModRs.parseBackend featCli featUi rm.backend with
          | err msg => rw [hb] at h; cases h
          | panicked => rw [hb] at h; cases h
          | ok b => simp only [hb] at h; cases h; rfl
  | other =>
    simp only [ModRs.load_from_cli] at h
    cases h

/-- C8: in both loaders, whenever loading succeeds the privilege level of
the result is `Experimental` exactly when the `--experimental` flag was
present and `Normal` otherwise — for every subcommand, file system and
feature set, and no other input occurs in that computation. -/
theorem C8_privilege_from_flag (featCli featUi : Bool) :
    (∀ (fs : String → Option String) (m : ArgsRs.RawMatches) (c : ArgsRs.CallArgs),
      ArgsRs.load featCli featUi fs m = .ok c →
      c.privileges = (if m.experimental then .Experimental else .Normal)) ∧
    (∀ (fs : String → Option String) (m : ModRs.RawMatches) (c : ModRs.CallArgs),
      ModRs.load_from_cli featCli featUi fs m = .ok c →
      c.privileges = (if m.experimental then .Experimental else .Normal)) :=
  ⟨fun fs m c h => argsRs_load_ok_privileges featCli featUi fs m c h,
   fun fs m c h => modRs_load_ok_privileges featCli featUi fs m c h⟩

/-- Witness for C8 at concrete invocations: with the flag the loaded
privilege is `Experimental` (src/args.rs), without it `Normal`
(src/args/mod.rs). -/
theorem C8_privilege_from_flag_witness :
    ArgsRs.load true true (fun _ => some "cfg") ⟨true, .init⟩ = .ok ⟨.Experimental, .Init⟩ ∧
    (⟨.Experimental, .Init⟩ : ArgsRs.CallArgs).privileges =
      (if (⟨true, .init⟩ : ArgsRs.RawMatches).experimental then .Experimental else .Normal) ∧
    ModRs.load_from_cli true true (fun _ => some "cfg") ⟨false, .init⟩ = .ok ⟨.Normal, .Init⟩ ∧
    (⟨.Normal, .Init⟩ : ModRs.CallArgs).privileges =
      (if (⟨false, .init⟩ : ModRs.RawMatches).experimental then .Experimental else .Normal) :=
  ⟨rfl,
   (C8_privilege_from_flag true true).1 (fun _ => some "cfg") ⟨true, .init⟩
     ⟨.Experimental, .Init⟩ rfl,
   rfl,
   (C8_privilege_from_flag true true).2 (fun _ => some "cfg") ⟨false, .init⟩
     ⟨.Normal, .Init⟩ rfl⟩

theorem mem_backendValues (featCli featUi : Bool) (s : String) :
    s ∈ ArgsRs.backendValues featCli featUi ↔
      s = "headless" ∨ (featCli = true ∧ s = "cli") ∨ (featUi = true ∧ s = "ui") := by
  cases featCli <;> cases featUi <;> simp [ArgsRs.backendValues]

/-- C10: every `--backend` value the clap `value_parser` of src/args.rs
admits (an element of `backend_values`) is handled by one of the explicit
match arms of `load`, so the fallback `Err(Error::Argument("no backend
specified"))` arm is unreachable under that precondition: parsing yields
a backend, and a render invocation with such a value never loads to that
error. -/
theorem C10_backend_fallback_unreachable (featCli featUi : Bool) (s : String)
    (hs : s ∈ ArgsRs.backendValues featCli featUi) :
    (∃ b, ArgsRs.parseBackend featCli featUi s = .ok b) ∧
    (∀ (fs : String → Option String) (m : ArgsRs.RawMatches) (rm : ArgsRs.RenderMatches),
      m.sub = .render rm → rm.backend = s →
      ArgsRs.load featCli featUi fs m ≠ .err (.Argument "no backend specified")) := by
  have hok : ∃ b, ArgsRs.parseBackend featCli featUi s = .ok b := by
    rw [mem_backendValues] at hs
    rcases hs with rfl | ⟨hc, rfl⟩ | ⟨hu, rfl⟩
    · exact ⟨.Headless, by simp [ArgsRs.parseBackend]⟩
    · exact ⟨.CLI, by simp [ArgsRs.parseBackend, hc]⟩
    · exact ⟨.UI, by simp [ArgsRs.parseBackend, hu]⟩
  refine ⟨hok, ?_⟩
  intro fs m rm hsub hb hcontra
  obtain ⟨e, sub⟩ := m
  simp only at hsub
  subst hsub
  subst hb
  obtain ⟨b, hbk⟩ := hok
  simp only [ArgsRs.load] at hcontra
  cases hfs : fs rm.config with
  | none => rw [hfs] at hcontra; cases hcontra
  | some config =>
    rw [hfs] at hcontra
    cases hvo : Shared.loadValueOverrides rm.value with
    | none => rw [hvo] at hcontra; cases hcontra
    | some vo =>
      rw [hvo] at hcontra
      rw [hbk] at hcontra
      cases hcontra

/-- Witness for C10 at the concrete registered value `headless` (all
features on): parsing yields a backend and a render invocation with it
does not load to the fallback error. -/
theorem C10_backend_fallback_unreachable_witness :
    ("headless" ∈ ArgsRs.backendValues true true) ∧
    (∃ b, ArgsRs.parseBackend true true "headless" = .ok b) ∧
    ArgsRs.load true true (fun _ => some "cfg")
      ⟨false, .render ⟨"p", none, false, false, [], "headless"⟩⟩ ≠
      .err (.Argument "no backend specified") :=
  ⟨by decide,
   (C10_backend_fallback_unreachable true true "headless" (by decide)).1,
   (C10_backend_fallback_unreachable true true "headless" (by decide)).2
     (fun _ => some "cfg") ⟨false, .render ⟨"p", none, false, false, [], "headless"⟩⟩
     ⟨"p", none, false, false, [], "headless"⟩ rfl rfl⟩
